import Mathlib

/-!
Shallow embedding of the featherlog query-algebra compiler
(`featherlog/__init__.py`): the `Var`/term model, `Relation` schemas, the
`Single`/`And`/`Or` query algebra with its `cols` and `sql` functions, and the
rule-compilation operator `__le__`.

Python sets are modelled as duplicate-free lists; where the source iterates
over a set (whose order CPython leaves unspecified) we fix one deterministic
enumeration, and where it iterates over a dict (insertion order) we reproduce
that order exactly.  Constants (Python `Any` values used as query arguments)
are modelled as integers.
-/

namespace Featherlog

/-- `Var` : frozen dataclass with a single `name` field; equality is by name. -/
structure Var where
  name : String
deriving DecidableEq, Repr

/-- A query argument: either a variable or a constant (`Any` in the source). -/
inductive Term where
  | var (v : Var)
  | const (c : Int)
deriving DecidableEq, Repr

def Term.isVar : Term → Bool
  | .var _ => true
  | .const _ => false

def Term.getVar : Term → Option Var
  | .var a => some a
  | .const _ => none

def Term.getConst : Term → Option Int
  | .var _ => none
  | .const c => some c

/-- `Relation` : name, ordered `(column-name, column-type)` pairs, set/bag flag. -/
structure Relation where
  name : String
  args : List (String × String)
  distinct : Bool
deriving DecidableEq, Repr

/-- `Sql` : compiled plan, query text plus ordered bound parameters. -/
structure Sql where
  code : String
  args : List Int
deriving DecidableEq, Repr

/-- The closed query algebra: `Single(rel, values)`, `And`, `Or`. -/
inductive Query where
  | single (rel : Relation) (values : List Term)
  | and (left right : Query)
  | or (left right : Query)
deriving DecidableEq, Repr

/-- The distinct variables of `values` in first-occurrence order: this is both
`set(a for a in values if isinstance(a, Var))` (as a deterministic list) and
the key order of the `min_arg` dict comprehension in `Single.sql`
(dict keys appear in insertion = first-occurrence order). -/
def firstVars : List Term → List Var
  | [] => []
  | .var a :: ts => a :: (firstVars ts).filter (fun b => b ≠ a)
  | .const _ :: ts => firstVars ts

/-- `cols` of each query variant: `Single` collects its distinct variables,
`And` takes the union (left-biased order), `Or` the intersection. -/
def Query.cols : Query → List Var
  | .single _ values => firstVars values
  | .and l r => l.cols ++ r.cols.filter (fun c => ¬ c ∈ l.cols)
  | .or l r => l.cols.filter (fun c => c ∈ r.cols)

/-- `col_names = [k for k, _ in self.rel.args]`. -/
def colNames (rel : Relation) : List String :=
  rel.args.map Prod.fst

/-- `min_arg[a] = min(j for j, b in enumerate(values) if a == b)`:
the first index holding variable `a`. -/
def minArg (values : List Term) (a : Var) : Nat :=
  values.findIdx (fun t => t == Term.var a)

/-- The repeated-variable unification conditions of `Single.sql`:
`col_names[i] = col_names[min_arg[a]]` for each position `i` holding a
variable `a` with `min_arg[a] != i`. -/
def singleUnifyWheres (rel : Relation) (values : List Term) : List String :=
  (List.range values.length).filterMap fun i =>
    match values.get? i with
    | some (Term.var a) =>
        if minArg values a ≠ i then
          some ((colNames rel).getD i "" ++ " = " ++ (colNames rel).getD (minArg values a) "")
        else none
    | _ => none

/-- Spec-side rendering of the claim about unification conditions, for
comparison with `singleUnifyWheres`: given a function `f` mapping each
variable to the least argument index holding it, emit
`column[i] = column[f a]` exactly at the positions `i` that hold a variable
`a` with `f a ≠ i`, and nothing at first occurrences. -/
def specUnifyWheres (rel : Relation) (vs : List Term) (f : Var → Nat) : List String :=
  (List.range vs.length).filterMap fun i =>
    match vs.get? i with
    | some (Term.var a) =>
        if f a ≠ i then
          some ((colNames rel).getD i "" ++ " = " ++ (colNames rel).getD (f a) "")
        else none
    | _ => none

/-- `value_args = [a for a in values if not isinstance(a, Var)]`. -/
def valueArgs (values : List Term) : List Int :=
  values.filterMap Term.getConst

/-- The constant conditions of `Single.sql`:
`[f"{col_names[i]} = ?" for i in range(len(value_args))]`.
Note the source indexes `col_names` by `range(len(value_args))`, not by the
constants' own positions. -/
def singleConstWheres (rel : Relation) (values : List Term) : List String :=
  (List.range (valueArgs values).length).map fun i =>
    (colNames rel).getD i "" ++ " = ?"

/-- The full `WHERE` clause of `Single.sql`. -/
def singleWheres (rel : Relation) (values : List Term) : String :=
  let ws := singleUnifyWheres rel values ++ singleConstWheres rel values
  "WHERE " ++ (if ws.length > 0 then String.intercalate " AND " ws else "true")

/-- The projection of `Single.sql`: `col_names[min_arg[a]] AS a.name` for each
distinct variable in first-occurrence order, or `NULL` when no variable
occurs. -/
def singleSelects (rel : Relation) (values : List Term) : String :=
  let fo := firstVars values
  if fo.length > 0 then
    String.intercalate ", " (fo.map fun a =>
      (colNames rel).getD (minArg values a) "" ++ " AS " ++ a.name)
  else "NULL"

/-- `left_cols & right_cols` of `And.sql`, enumerated in left-child order. -/
def andShared (lc rc : List Var) : List Var :=
  lc.filter (fun c => c ∈ rc)

/-- The equi-join conditions of `And.sql`: `_t1.{c} = _t2.{c}` per shared
variable. -/
def andOnConds (lc rc : List Var) : List String :=
  (andShared lc rc).map fun c => "_t1." ++ c.name ++ " = _t2." ++ c.name

/-- `on_clause` of `And.sql`: empty, or `\nWHERE` followed by the joined
conditions. -/
def andOnClause (lc rc : List Var) : String :=
  let s := String.intercalate " AND " (andOnConds lc rc)
  if s = "" then "" else "\nWHERE " ++ s

/-- The projection of `And.sql`: every left column, then every right column
whose variable is not among the left child's. -/
def andSelects (lc rc : List Var) : List String :=
  lc.map (fun c => "_t1." ++ c.name ++ " AS " ++ c.name)
    ++ (rc.filter (fun c => ¬ c ∈ lc)).map (fun c => "_t2." ++ c.name ++ " AS " ++ c.name)

/-- Full query text of `And.sql` given the children's texts and columns. -/
def andCode (lcode rcode : String) (lc rc : List Var) : String :=
  "SELECT " ++ String.intercalate ", " (andSelects lc rc)
    ++ "\nFROM (" ++ lcode ++ ") AS _t1,\n(" ++ rcode ++ ") AS _t2"
    ++ andOnClause lc rc

/-- `names` of `Or.sql`: the comma-joined common column names. -/
def orNames (lc rc : List Var) : String :=
  String.intercalate ", " ((lc.filter (fun c => c ∈ rc)).map Var.name)

/-- Full query text of `Or.sql` given the children's texts and columns. -/
def orCode (lcode rcode : String) (lc rc : List Var) : String :=
  let names := orNames lc rc
  "SELECT " ++ names
    ++ "\nFROM (SELECT " ++ names ++ " FROM (" ++ lcode ++ ")"
    ++ "\nUNION ALL SELECT " ++ names ++ " FROM (" ++ rcode ++ "))"

/-- The compiled plan of each query variant (`Single.sql`, `And.sql`,
`Or.sql`). -/
def Query.sql : Query → Sql
  | .single rel values =>
      ⟨"SELECT " ++ singleSelects rel values ++ "\nFROM " ++ rel.name ++ "\n"
        ++ singleWheres rel values,
       valueArgs values⟩
  | .and l r =>
      ⟨andCode (sql l).code (sql r).code l.cols r.cols, (sql l).args ++ (sql r).args⟩
  | .or l r =>
      ⟨orCode (sql l).code (sql r).code l.cols r.cols, (sql l).args ++ (sql r).args⟩

/-- The two validation failures of `Single.__le__` (Python `assert`s). -/
inductive RuleError where
  | nonVarHead
  | unboundVar (v : Var)
deriving DecidableEq, Repr

/-- The variables of a head's value list, in position order. -/
def headVars (values : List Term) : List Var :=
  values.filterMap Term.getVar

/-- `Single.__le__(body)`: rule compilation.  Fails if some head value is not
a variable, or (naming the first offender) if some head variable is not among
`body.cols`; otherwise emits the insert-from-select plan with the body's
parameters. -/
def ruleLe (rel : Relation) (values : List Term) (body : Query) : Except RuleError Sql :=
  if values.all Term.isVar then
    match (headVars values).find? (fun v => ¬ v ∈ body.cols) with
    | some v => .error (.unboundVar v)
    | none =>
        let selects := values.filterMap fun t =>
          match t with
          | Term.var a => some a.name
          | Term.const _ => none
        let code := "INSERT INTO " ++ rel.name ++ "\nSELECT "
          ++ String.intercalate "," selects
          ++ "\nFROM (" ++ (Query.sql body).code ++ ") WHERE true"
        let code := if rel.distinct then code ++ " ON CONFLICT DO NOTHING" else code
        .ok ⟨code, (Query.sql body).args⟩
  else .error .nonVarHead

/-- The constants of a query tree in left-to-right, depth-first order. -/
def Query.consts : Query → List Int
  | .single _ values => values.filterMap Term.getConst
  | .and l r => l.consts ++ r.consts
  | .or l r => l.consts ++ r.consts

/-! Sample relations and variables used to instantiate theorems on concrete
inputs. -/

def eRel : Relation := ⟨"e", [("c0", "INT"), ("c1", "INT")], false⟩

def pRel : Relation := ⟨"p", [("c0", "INT"), ("c1", "INT")], true⟩

def xV : Var := ⟨"x"⟩

def yV : Var := ⟨"y"⟩

def zV : Var := ⟨"z"⟩

/-! Helper lemmas. -/

theorem mem_firstVars (a : Var) : ∀ vs : List Term, a ∈ firstVars vs ↔ Term.var a ∈ vs := by
  intro vs
  induction vs with
  | nil => simp [firstVars]
  | cons t ts ih =>
    cases t with
    | var b =>
      simp only [firstVars, List.mem_cons, List.mem_filter, ih, decide_eq_true_eq,
        Term.var.injEq]
      by_cases hab : a = b <;> simp [hab]
    | const c => simp [firstVars, ih]

theorem firstVars_nodup : ∀ vs : List Term, (firstVars vs).Nodup := by
  intro vs
  induction vs with
  | nil => simp [firstVars]
  | cons t ts ih =>
    cases t with
    | var b =>
      simp only [firstVars, List.nodup_cons]
      refine ⟨fun hmem => ?_, ih.filter _⟩
      have := (List.mem_filter.mp hmem).2
      simp at this
    | const c => simpa [firstVars] using ih

theorem cols_nodup : ∀ q : Query, q.cols.Nodup
  | .single _ vs => firstVars_nodup vs
  | .and l r => by
      have hl := cols_nodup l
      have hr := cols_nodup r
      simp only [Query.cols]
      rw [List.nodup_append]
      refine ⟨hl, hr.filter _, fun a ha hb => ?_⟩
      have := (List.mem_filter.mp hb).2
      simp only [decide_eq_true_eq] at this
      exact this ha
  | .or l r => (cols_nodup l).filter _

end Featherlog

namespace Featherlog

/-- C1: the claim says each constant at position `i` yields the condition
`column[i] = ?`.  The code instead indexes columns by the constant's rank:
for `e(x, 5)` — a constant at position 1 — it emits `c0 = ?`, naming column 0,
not `c1 = ?`.  The bound parameter list `[5]` is the constants in order. -/
theorem c1_constant_filter_names_wrong_column :
    (Query.single eRel [Term.var xV, Term.const 5]).sql
        = ⟨"SELECT c0 AS x\nFROM e\nWHERE c0 = ?", [5]⟩
      ∧ singleConstWheres eRel [Term.var xV, Term.const 5] = ["c0 = ?"]
      ∧ ("c0 = ?" : String) ≠ "c1 = ?" :=
  ⟨rfl, rfl, by decide⟩

/-- C2: `And.cols` is the union of the children's output-variable sets and
`Or.cols` is their intersection. -/
theorem c2_and_or_cols (l r : Query) :
    (Query.and l r).cols.toFinset = l.cols.toFinset ∪ r.cols.toFinset
      ∧ (Query.or l r).cols.toFinset = l.cols.toFinset ∩ r.cols.toFinset := by
  constructor
  · ext a
    simp only [Query.cols, List.toFinset_append, List.mem_toFinset, Finset.mem_union,
      List.mem_append, List.mem_filter, decide_eq_true_eq]
    tauto
  · ext a
    simp [Query.cols, List.mem_filter]

/-- C7: the output variables of a `Single` query are exactly the distinct
variables of its argument list — each occurring variable exactly once,
constants contributing nothing. -/
theorem c7_single_cols (rel : Relation) (vs : List Term) :
    (∀ a : Var, a ∈ (Query.single rel vs).cols ↔ Term.var a ∈ vs)
      ∧ (Query.single rel vs).cols.Nodup :=
  ⟨fun a => by simpa [Query.cols] using mem_firstVars a vs, firstVars_nodup vs⟩

/-- C9: a `Single` query whose arguments are all constants still compiles,
and its projection is the single `NULL` placeholder column. -/
theorem c9_all_constants_null_projection (rel : Relation) (vs : List Term)
    (h : ∀ t ∈ vs, t.isVar = false) :
    singleSelects rel vs = "NULL"
      ∧ (Query.single rel vs).sql.code
          = "SELECT NULL\nFROM " ++ rel.name ++ "\n" ++ singleWheres rel vs := by
  have hfv : firstVars vs = [] := by
    rw [List.eq_nil_iff_forall_not_mem]
    intro a ha
    have hmem := (mem_firstVars a vs).mp ha
    have := h _ hmem
    simp [Term.isVar] at this
  have hsel : singleSelects rel vs = "NULL" := by
    simp [singleSelects, hfv]
  exact ⟨hsel, by simp [Query.sql, hsel]⟩

/-- Witness for C9 at the all-constant query `e(7, 5)`. -/
theorem c9_all_constants_null_projection_witness :
    singleSelects eRel [Term.const 7, Term.const 5] = "NULL"
      ∧ (Query.single eRel [Term.const 7, Term.const 5]).sql.code
          = "SELECT NULL\nFROM " ++ eRel.name ++ "\n"
            ++ singleWheres eRel [Term.const 7, Term.const 5] :=
  c9_all_constants_null_projection eRel [Term.const 7, Term.const 5] (by decide)

theorem minArg_eq (vs : List Term) (a : Var) (n : Nat)
    (h1 : vs.get? n = some (Term.var a))
    (h2 : ∀ k, k < n → vs.get? k ≠ some (Term.var a)) :
    minArg vs a = n := by
  simp only [List.get?_eq_getElem?] at h1 h2
  obtain ⟨hn, hval⟩ := List.getElem?_eq_some.mp h1
  rw [minArg, List.findIdx_eq hn]
  refine ⟨by simp [hval], fun j hj => ?_⟩
  have hne : ¬ vs.get ⟨j, Nat.lt_trans hj hn⟩ = Term.var a := fun hcontra =>
    h2 j hj (List.getElem?_eq_some.mpr ⟨Nat.lt_trans hj hn, by simpa using hcontra⟩)
  simpa using hne

theorem selectNames (vs : List Term) :
    (vs.filterMap fun t => match t with
      | Term.var a => some a.name
      | Term.const _ => none)
      = (headVars vs).map Var.name := by
  induction vs with
  | nil => rfl
  | cons t ts ih => cases t <;> simp [headVars, Term.getVar, ih]

/-- C3: the unification conditions of `Single.sql` are exactly
`column[i] = column[minArg(a)]` at the positions `i` holding a variable `a`
whose first occurrence `minArg(a)` differs from `i`, and none at first
occurrences — for any `f` assigning each occurring variable its least
argument index. -/
theorem c3_unification_conditions (rel : Relation) (vs : List Term) (f : Var → Nat)
    (hf : ∀ a ∈ firstVars vs, vs.get? (f a) = some (Term.var a)
            ∧ ∀ k, k < f a → vs.get? k ≠ some (Term.var a)) :
    singleUnifyWheres rel vs = specUnifyWheres rel vs f := by
  unfold singleUnifyWheres specUnifyWheres
  apply List.filterMap_congr
  intro i _
  cases hv : vs.get? i with
  | none => rfl
  | some t =>
    cases t with
    | const c => rfl
    | var a =>
      have ha : a ∈ firstVars vs := (mem_firstVars a vs).mpr (List.get?_mem hv)
      have hm := minArg_eq vs a (f a) (hf a ha).1 (hf a ha).2
      dsimp only
      rw [hm]

/-- Witness for C3 at `e(x, x)` with `f x = 0`: the one condition `c1 = c0`. -/
theorem c3_unification_conditions_witness :
    singleUnifyWheres eRel [Term.var xV, Term.var xV]
      = specUnifyWheres eRel [Term.var xV, Term.var xV] (fun _ => 0) :=
  c3_unification_conditions eRel [Term.var xV, Term.var xV] (fun _ => 0) (by decide)

/-- C4: rule compilation fails fast — with `nonVarHead` when some head value
is a constant, and with `unboundVar w` naming an offending head variable `w`
absent from the body's output variables. -/
theorem c4_head_validation (rel : Relation) (vs : List Term) (body : Query) :
    (vs.all Term.isVar = false → ruleLe rel vs body = Except.error RuleError.nonVarHead)
      ∧ (vs.all Term.isVar = true → (∃ v ∈ headVars vs, v ∉ body.cols) →
          ∃ w ∈ headVars vs, w ∉ body.cols
            ∧ ruleLe rel vs body = Except.error (RuleError.unboundVar w)) := by
  constructor
  · intro hall
    simp [ruleLe, hall]
  · intro hall hex
    have hne : (headVars vs).find? (fun v => ¬ v ∈ body.cols) ≠ none := by
      rw [Ne, List.find?_eq_none]
      push_neg
      obtain ⟨v, hv, hnv⟩ := hex
      exact ⟨v, hv, by simpa using hnv⟩
    obtain ⟨w, hw⟩ := Option.ne_none_iff_exists'.mp hne
    have hwmem := List.mem_of_find?_eq_some hw
    have hwne : w ∉ body.cols := by simpa using List.find?_some hw
    simp only [decide_not] at hw
    exact ⟨w, hwmem, hwne, by simp [ruleLe, hall, hw]⟩

/-- Witness for C4: `e(x, 3) <= e(x, y)` fails with `nonVarHead`, and
`e(x, z) <= e(x, y)` fails with `unboundVar z`. -/
theorem c4_head_validation_witness :
    ruleLe eRel [Term.var xV, Term.const 3] (Query.single eRel [Term.var xV, Term.var yV])
        = Except.error RuleError.nonVarHead
      ∧ ∃ w ∈ headVars [Term.var xV, Term.var zV],
          w ∉ (Query.single eRel [Term.var xV, Term.var yV]).cols
            ∧ ruleLe eRel [Term.var xV, Term.var zV]
                (Query.single eRel [Term.var xV, Term.var yV])
                = Except.error (RuleError.unboundVar w) :=
  ⟨(c4_head_validation eRel [Term.var xV, Term.const 3]
      (Query.single eRel [Term.var xV, Term.var yV])).1 (by decide),
   (c4_head_validation eRel [Term.var xV, Term.var zV]
      (Query.single eRel [Term.var xV, Term.var yV])).2 (by decide) (by decide)⟩

/-- C5: a valid rule `head <= body` compiles to an insert into the head
relation selecting the head's variable names from the body's plan, guarded by
`WHERE true`, with the body's parameters, and with duplicate suppression
exactly when the head relation is set-typed. -/
theorem c5_rule_success (rel : Relation) (vs : List Term) (body : Query)
    (h1 : vs.all Term.isVar = true)
    (h2 : ∀ v ∈ headVars vs, v ∈ body.cols) :
    ruleLe rel vs body
      = Except.ok ⟨"INSERT INTO " ++ rel.name ++ "\nSELECT "
          ++ String.intercalate "," ((headVars vs).map Var.name)
          ++ "\nFROM (" ++ (Query.sql body).code ++ ") WHERE true"
          ++ (if rel.distinct then " ON CONFLICT DO NOTHING" else ""),
        (Query.sql body).args⟩ := by
  have hf : (headVars vs).find? (fun v => ¬ v ∈ body.cols) = none := by
    rw [List.find?_eq_none]
    intro v hv
    simp [h2 v hv]
  simp only [decide_not] at hf
  cases hd : rel.distinct <;>
    simp [ruleLe, h1, hf, hd, selectNames]

/-- Witness for C5: `p(x, x) <= e(x, 5)` (set-typed head). -/
theorem c5_rule_success_witness :
    ruleLe pRel [Term.var xV, Term.var xV] (Query.single eRel [Term.var xV, Term.const 5])
      = Except.ok ⟨"INSERT INTO " ++ pRel.name ++ "\nSELECT "
          ++ String.intercalate "," ((headVars [Term.var xV, Term.var xV]).map Var.name)
          ++ "\nFROM (" ++ (Query.sql (Query.single eRel [Term.var xV, Term.const 5])).code
          ++ ") WHERE true"
          ++ (if pRel.distinct then " ON CONFLICT DO NOTHING" else ""),
        (Query.sql (Query.single eRel [Term.var xV, Term.const 5])).args⟩ :=
  c5_rule_success pRel [Term.var xV, Term.var xV]
    (Query.single eRel [Term.var xV, Term.const 5]) (by decide) (by decide)

/-- C6: `And.sql` emits one equi-join condition per shared variable (the
shared enumeration is duplicate-free and holds exactly the variables common
to both children), projects every left column plus the right columns whose
variables are not the left child's, and adds no filter clause when the
children share no variables. -/
theorem c6_and_join (l r : Query) :
    ((andShared l.cols r.cols).Nodup
        ∧ ∀ c : Var, c ∈ andShared l.cols r.cols ↔ c ∈ l.cols ∧ c ∈ r.cols)
      ∧ andOnConds l.cols r.cols
          = (andShared l.cols r.cols).map (fun c => "_t1." ++ c.name ++ " = _t2." ++ c.name)
      ∧ andSelects l.cols r.cols
          = l.cols.map (fun c => "_t1." ++ c.name ++ " AS " ++ c.name)
            ++ (r.cols.filter (fun c => ¬ c ∈ l.cols)).map
                (fun c => "_t2." ++ c.name ++ " AS " ++ c.name)
      ∧ (andShared l.cols r.cols = [] →
          (Query.and l r).sql.code
            = "SELECT " ++ String.intercalate ", " (andSelects l.cols r.cols)
              ++ "\nFROM (" ++ (Query.sql l).code ++ ") AS _t1,\n("
              ++ (Query.sql r).code ++ ") AS _t2") := by
  refine ⟨⟨(cols_nodup l).filter _, fun c => ?_⟩, rfl, rfl, fun hsh => ?_⟩
  · simp [andShared, List.mem_filter]
  · have hnil : String.intercalate " AND " (andOnConds l.cols r.cols) = "" := by
      rw [andOnConds, hsh]
      rfl
    have hcl : andOnClause l.cols r.cols = "" := by
      simp [andOnClause, hnil]
    simp [Query.sql, andCode, hcl]

/-- Witness for C6 at the variable-disjoint conjunction
`e(x, y) & e(z, z)`: a cross product with no filter clause. -/
theorem c6_and_join_witness :
    (Query.and (Query.single eRel [Term.var xV, Term.var yV])
        (Query.single eRel [Term.var zV, Term.var zV])).sql.code
      = "SELECT "
        ++ String.intercalate ", "
            (andSelects (Query.single eRel [Term.var xV, Term.var yV]).cols
              (Query.single eRel [Term.var zV, Term.var zV]).cols)
        ++ "\nFROM (" ++ (Query.sql (Query.single eRel [Term.var xV, Term.var yV])).code
        ++ ") AS _t1,\n("
        ++ (Query.sql (Query.single eRel [Term.var zV, Term.var zV])).code ++ ") AS _t2" :=
  (c6_and_join (Query.single eRel [Term.var xV, Term.var yV])
    (Query.single eRel [Term.var zV, Term.var zV])).2.2.2 (by decide)

/-- C8: the bound parameters of every compiled plan are the tree's constant
arguments in left-to-right, depth-first order, and a compiled rule's
parameters are its body's constants in that same order. -/
theorem c8_params_depth_first :
    (∀ q : Query, (Query.sql q).args = q.consts)
      ∧ ∀ (rel : Relation) (vs : List Term) (body : Query) (s : Sql),
          ruleLe rel vs body = Except.ok s → s.args = body.consts := by
  have h1 : ∀ q : Query, (Query.sql q).args = q.consts := by
    intro q
    induction q with
    | single rel vs => rfl
    | and l r ihl ihr => simp [Query.sql, Query.consts, ihl, ihr]
    | or l r ihl ihr => simp [Query.sql, Query.consts, ihl, ihr]
  refine ⟨h1, fun rel vs body s h => ?_⟩
  by_cases hall : vs.all Term.isVar
  · cases hfind : (headVars vs).find? (fun v => ¬ v ∈ body.cols) with
    | some v =>
      simp only [decide_not] at hfind
      simp [ruleLe, hall, hfind] at h
    | none =>
      simp only [ruleLe, hall, hfind, if_true] at h
      have hs := (Except.ok.inj h).symm
      rw [hs]
      simpa using h1 body
  · simp [ruleLe, hall] at h

/-- Witness for C8's rule clause at `p(x, x) <= e(x, 5)`. -/
theorem c8_params_depth_first_witness :
    Sql.args
        ⟨"INSERT INTO p\nSELECT x,x\nFROM (SELECT c0 AS x\nFROM e\nWHERE c0 = ?) WHERE true ON CONFLICT DO NOTHING",
          [5]⟩
      = (Query.single eRel [Term.var xV, Term.const 5]).consts :=
  c8_params_depth_first.2 pRel [Term.var xV, Term.var xV]
    (Query.single eRel [Term.var xV, Term.const 5])
    ⟨"INSERT INTO p\nSELECT x,x\nFROM (SELECT c0 AS x\nFROM e\nWHERE c0 = ?) WHERE true ON CONFLICT DO NOTHING",
      [5]⟩
    (by rfl)

/-- C10: an `Or` of children sharing no output variables still compiles,
silently, to a plan whose projection lists no column names. -/
theorem c10_or_disjoint_empty_projection (l r : Query)
    (h : ∀ c ∈ l.cols, c ∉ r.cols) :
    orNames l.cols r.cols = ""
      ∧ (Query.or l r).sql.code
          = "SELECT \nFROM (SELECT  FROM (" ++ (Query.sql l).code
            ++ ")\nUNION ALL SELECT  FROM (" ++ (Query.sql r).code ++ "))" := by
  have hfil : l.cols.filter (fun c => c ∈ r.cols) = [] := by
    rw [List.filter_eq_nil_iff]
    intro a ha
    simp [h a ha]
  have h1 : orNames l.cols r.cols = "" := by
    simp [orNames, hfil]
    rfl
  have m1 : ("SELECT \nFROM (SELECT  FROM (" : String)
      = "SELECT " ++ "\nFROM (SELECT " ++ " FROM (" := rfl
  have m2 : (")\nUNION ALL SELECT  FROM (" : String)
      = ")" ++ "\nUNION ALL SELECT " ++ " FROM (" := rfl
  refine ⟨h1, ?_⟩
  simp only [Query.sql, orCode, h1, String.append_empty, m1, m2, String.append_assoc]

/-- Witness for C10 at `e(x, y) | e(z, z)` (children share no variables). -/
theorem c10_or_disjoint_empty_projection_witness :
    orNames (Query.single eRel [Term.var xV, Term.var yV]).cols
        (Query.single eRel [Term.var zV, Term.var zV]).cols = ""
      ∧ (Query.or (Query.single eRel [Term.var xV, Term.var yV])
            (Query.single eRel [Term.var zV, Term.var zV])).sql.code
          = "SELECT \nFROM (SELECT  FROM ("
            ++ (Query.sql (Query.single eRel [Term.var xV, Term.var yV])).code
            ++ ")\nUNION ALL SELECT  FROM ("
            ++ (Query.sql (Query.single eRel [Term.var zV, Term.var zV])).code ++ "))" :=
  c10_or_disjoint_empty_projection (Query.single eRel [Term.var xV, Term.var yV])
    (Query.single eRel [Term.var zV, Term.var zV]) (by decide)

end Featherlog
